import Mathlib

/-!
Shallow embedding of the load-balancer simulation (Rust sources:
src/request.rs, src/server.rs, src/main.rs) and proofs about it.

Modelling conventions:
* `u64` / `usize` / `i32` values are modelled as `Nat` / `Int`.  The only
  arithmetic where machine-width behaviour matters is the allocator's
  `(server_id - 1) as usize` index computation on a `u64`, which is modelled
  with explicit wrap-around modulo `2 ^ 64` (release-mode semantics);
  a Rust panic (out-of-bounds array index) is modelled as `Option.none`.
* `total_workload : u64` is modelled as `Nat`: every service time is at most
  5000 and queues in any reachable program state hold at most 10 requests,
  so the running sum stays far below `2 ^ 64` and overflow is unreachable.
* Random draws (`rng.random_range`) are modelled by explicit draw parameters;
  the float Bernoulli trial of the generator is abstracted as its boolean
  outcome.
* `VecDeque` is a `List` whose head is the deque front; `saturating_sub` on
  `u64` is truncated subtraction on `Nat`.
-/

namespace LoadBalancer

/-- `RequestSize` from src/request.rs (the spec calls `Mid` "Medium"). -/
inductive RequestSize where
  | Small
  | Mid
  | Large
deriving DecidableEq, Repr

/-- `RequestSize::mult_factor` from src/request.rs. -/
def RequestSize.mult_factor : RequestSize → Nat
  | .Small => 5
  | .Mid => 10
  | .Large => 50

/-- `RequestType` from src/request.rs. -/
inductive RequestType where
  | CPUsBound
  | IOBound
  | Mixed
deriving DecidableEq, Repr

/-- `RequestType::cpu_time` from src/request.rs. -/
def RequestType.cpu_time : RequestType → Nat
  | .CPUsBound => 95
  | .IOBound => 30
  | .Mixed => 55

/-- `RequestType::io_time` from src/request.rs. -/
def RequestType.io_time : RequestType → Nat
  | .CPUsBound => 5
  | .IOBound => 70
  | .Mixed => 45

/-- `Request` from src/request.rs.  The `created_at : Instant` wall-clock
field is omitted: no claim depends on it and real time has no shallow
embedding. -/
structure Request where
  id : Nat
  kind : RequestType
  size : RequestSize
deriving DecidableEq, Repr

/-- `Request::get_time` from src/request.rs:
`(cpu_time + io_time) * mult_factor`. -/
def Request.get_time (r : Request) : Nat :=
  (r.kind.cpu_time + r.kind.io_time) * r.size.mult_factor

/-- `REQ_TYPES` from `Request::create_random` in src/request.rs. -/
def REQ_TYPES : List RequestType := [.CPUsBound, .IOBound, .Mixed]

/-- `REQ_SIZES` from `Request::create_random` in src/request.rs. -/
def REQ_SIZES : List RequestSize := [.Small, .Mid, .Large]

/-- `Request::create_random` from src/request.rs.  Each `rng.random_range`
call is modelled by a draw parameter reduced into the requested range:
`random_range(1000000..10000000)` yields `1000000 + idDraw % 9000000` and
`random_range(0..3)` yields `draw % 3` (the `getD` default is unreachable
since the index is `< 3`). -/
def Request.create_random (idDraw kindDraw sizeDraw : Nat) : Request :=
  { id := 1000000 + idDraw % 9000000
    kind := REQ_TYPES.getD (kindDraw % 3) .CPUsBound
    size := REQ_SIZES.getD (sizeDraw % 3) .Small }

/-- `ServerState` from src/server.rs.  The `VecDeque` queue is a list whose
head is the front of the deque. -/
structure ServerState where
  id : Nat
  queue : List Request
  total_workload : Nat
  is_processing : Bool
deriving DecidableEq, Repr

/-- `ServerState::new` from src/server.rs (the `with_capacity(10)` allocation
hint has no logical content beyond the capacity constant below). -/
def ServerState.new (id : Nat) : ServerState :=
  { id := id, queue := [], total_workload := 0, is_processing := false }

/-- `VecDeque::with_capacity(10)` in `ServerState::new`: the queue capacity
that `queue.capacity()` reports in the allocator's bound check. -/
def SERVER_QUEUE_CAPACITY : Nat := 10

/-- `ServerState::add_request` from src/server.rs: add the request's service
time to `total_workload` and push the request at the back of the queue. -/
def ServerState.add_request (s : ServerState) (r : Request) : ServerState :=
  { s with
    total_workload := s.total_workload + r.get_time
    queue := s.queue ++ [r] }

/-- `ServerState::remove_request` from src/server.rs: pop the front of the
queue, subtracting its service time from `total_workload` with saturating
subtraction (`Nat` subtraction is saturating); on an empty queue return
`none` and change nothing. -/
def ServerState.remove_request (s : ServerState) : Option Request × ServerState :=
  match s.queue with
  | [] => (none, s)
  | r :: rest =>
      (some r,
       { s with
         queue := rest
         total_workload := s.total_workload - r.get_time })

/-- The workload a full re-scan of the queue would compute: the sum of
`get_time` over the currently queued requests (spec §3, recomputed
independently). -/
def ServerState.queueWorkload (s : ServerState) : Nat :=
  (s.queue.map Request.get_time).sum

/-- An enqueue/dequeue operation on a `ServerState` (for claims quantifying
over operation sequences). -/
inductive ServerOp where
  | add (r : Request)
  | remove
deriving Repr

/-- Apply one operation to a `ServerState`. -/
def ServerState.applyOp (s : ServerState) : ServerOp → ServerState
  | .add r => s.add_request r
  | .remove => (s.remove_request).2

/-- Apply a sequence of operations left to right. -/
def ServerState.applyOps (s : ServerState) (ops : List ServerOp) : ServerState :=
  ops.foldl ServerState.applyOp s

/-! ### Placement policies (`ServerChoiceMode::choose`, src/main.rs) -/

/-- The allocator's three mirrored server slots (`[ServerState; 3]` in
src/main.rs); array indices are `Fin 3`. -/
abbrev Servers := Fin 3 → ServerState

/-- The `RoundRobin` arm of `ServerChoiceMode::choose` (src/main.rs):
return `[start, (start+1) % 3, (start+2) % 3]` where `start` is the stored
cursor, and advance the cursor to `(start + 1) % 3`.  Result: (preference
list, new cursor). -/
def rrChoose (server_num : Nat) : List Nat × Nat :=
  ([server_num, (server_num + 1) % 3, (server_num + 2) % 3], (server_num + 1) % 3)

/-- The first element of a round-robin preference list. -/
def listFirst (l : List Nat) : Nat :=
  match l with
  | [] => 0
  | x :: _ => x

/-- First positions handed out by three consecutive `RoundRobin` calls
starting from cursor `c` (the cursor threads through the calls). -/
def rrFirsts (c : Nat) : List Nat :=
  let r1 := rrChoose c
  let r2 := rrChoose r1.2
  let r3 := rrChoose r2.2
  [listFirst r1.1, listFirst r2.1, listFirst r3.1]

/-- The `SmallerQueue` arm of `ServerChoiceMode::choose` (src/main.rs):
enumerate the servers as (index, total_workload) pairs, stable-sort them by
workload (`sort_by_key` is a stable sort; insertion sort with a non-strict
key comparison realises exactly that), and return the indices. -/
def smallerQueueChoose (server_states : Servers) : List (Fin 3) :=
  let servers_by_load : List (Fin 3 × Nat) :=
    (List.finRange 3).map (fun i => (i, (server_states i).total_workload))
  (servers_by_load.insertionSort (fun a b => a.2 ≤ b.2)).map (fun p => p.1)

/-! ### Generator (`spawn_request_generator`, src/main.rs) -/

/-- `PENDING_REQUESTS_LIMIT` from src/main.rs. -/
def PENDING_REQUESTS_LIMIT : Int := 20

/-- One creation attempt of the generator tick (src/main.rs lines 196-208):
if the in-flight counter is below the limit and the Bernoulli trial
(`rng.random_range(0.0..10.0) < arrival_rate`, abstracted as its boolean
outcome) succeeds, emit a `RequestCreated` and increment the counter.
Result: (emitted, new counter). -/
def genCreationAttempt (limit pending : Int) (trial : Bool) : Bool × Int :=
  if pending < limit ∧ trial = true then (true, pending + 1) else (false, pending)

/-- The generator's reaction to a routed `RequestAssigned` event
(src/main.rs lines 212-214): decrement the in-flight counter. -/
def genRecvAssigned (pending : Int) : Int :=
  pending - 1

/-- Run a sequence of creation attempts (one per tick) with no intervening
`RequestAssigned` events, counting emitted `RequestCreated` events. -/
def genAttempts (limit : Int) : Int → List Bool → Nat
  | _, [] => 0
  | pending, t :: ts =>
      let step := genCreationAttempt limit pending t
      (if step.1 then 1 else 0) + genAttempts limit step.2 ts

/-! ### Allocator (`spawn_request_allocator`, src/main.rs) -/

/-- The allocator task's private state (src/main.rs lines 233-245):
mirrored server slots, the FIFO of un-placed requests, the `full_server`
flags and the consecutive-full-failure counter. -/
structure AllocState where
  server_states : Servers
  requests : List Request
  full_server : Fin 3 → Bool
  consecutive_full_errors : Nat

/-- The `for &idx in &server_indices` walk (src/main.rs lines 276-296):
assign the request to the first server in the preference list whose queue
length is below `queue.capacity()` (= 10); servers found full get their
`full_server` flag set.  Result: (servers, full flags, index assigned
to, if any). -/
def allocWalk (states : Servers) (full : Fin 3 → Bool) (r : Request) :
    List (Fin 3) → Servers × (Fin 3 → Bool) × Option (Fin 3)
  | [] => (states, full, none)
  | idx :: rest =>
      if (states idx).queue.length < SERVER_QUEUE_CAPACITY then
        (Function.update states idx ((states idx).add_request r), full, some idx)
      else
        allocWalk states (Function.update full idx true) r rest

/-- What one allocation tick produces: the new allocator state, the
`RequestAssigned` event (if one was emitted), whether an `ErrorEncountered`
event was emitted, and the backoff sleep in milliseconds (0 = none). -/
structure AllocTickOut where
  state : AllocState
  assigned : Option (Fin 3 × Request)
  errorEmitted : Bool
  sleepMs : Nat

/-- The allocation part of one allocator tick (src/main.rs lines 271-317).
`order` is the preference list the active policy returned (quantifying over
arbitrary lists covers all three policies).  Faithful to the source: the
local `assigned` flag is initialised to `true` (line 272) and the loop only
ever re-assigns `true` to it, so the `!assigned && full_server == [true; 3]`
branch carrying the error event and the backoff is taken exactly when the
source would take it (never, as proved below). -/
def allocTick (st : AllocState) (order : List (Fin 3)) : AllocTickOut :=
  match st.requests with
  | [] => { state := st, assigned := none, errorEmitted := false, sleepMs := 0 }
  | r :: rest =>
      let assigned : Bool := true
      let w := allocWalk st.server_states st.full_server r order
      let requests' := match w.2.2 with
        | some _ => rest
        | none => r :: rest
      let ev : Option (Fin 3 × Request) := w.2.2.map (fun idx => (idx, r))
      if !assigned && (w.2.1 0 && w.2.1 1 && w.2.1 2) then
        { state :=
            { server_states := w.1, requests := requests', full_server := w.2.1
              consecutive_full_errors := st.consecutive_full_errors + 1 }
          assigned := ev
          errorEmitted := decide ((st.consecutive_full_errors + 1) % 10 = 1)
          sleepMs :=
            if 5 < st.consecutive_full_errors + 1 then
              50 * min (st.consecutive_full_errors + 1) 20
            else 0 }
      else
        { state :=
            { server_states := w.1, requests := requests', full_server := w.2.1
              consecutive_full_errors := st.consecutive_full_errors }
          assigned := ev
          errorEmitted := false
          sleepMs := 0 }

/-! ### Event handlers indexing by a computed server id

`(server_id - 1) as usize` on a `u64` wraps modulo `2 ^ 64` (release
semantics); an out-of-range array index is a Rust panic. -/

/-- The `server_idx` computation `(server_id - 1) as usize` shared by the
allocator and the server pool (src/main.rs lines 258, 341, 353). -/
def serverIdxOfId (server_id : Nat) : Nat :=
  (server_id + (2 ^ 64 - 1)) % 2 ^ 64

/-- The allocator's `RequestProcessed` handler (src/main.rs lines 253-262):
`server_states[server_idx].remove_request()` and clear `is_processing` —
with NO bounds check, so an out-of-range index panics (modelled as
`none`). -/
def allocRecvProcessedEvent (states : Servers) (server_id : Nat) : Option Servers :=
  let server_idx := serverIdxOfId server_id
  if h : server_idx < 3 then
    some (Function.update states ⟨server_idx, h⟩
      { ((states ⟨server_idx, h⟩).remove_request).2 with is_processing := false })
  else
    none

/-- The server pool's `RequestAssigned` handler (src/main.rs lines 340-347):
guarded by `if server_idx < servers.len()`, so an out-of-range index skips
the update. -/
def poolRecvAssignedEvent (servers : Servers) (server_id : Nat) (r : Request) : Servers :=
  let server_idx := serverIdxOfId server_id
  if h : server_idx < 3 then
    Function.update servers ⟨server_idx, h⟩ ((servers ⟨server_idx, h⟩).add_request r)
  else
    servers

/-- The server pool's `RequestProcessed` handler (src/main.rs lines 348-359):
guarded by the same bounds check; clears `is_processing`. -/
def poolRecvProcessedEvent (servers : Servers) (server_id : Nat) : Servers :=
  let server_idx := serverIdxOfId server_id
  if h : server_idx < 3 then
    Function.update servers ⟨server_idx, h⟩
      { servers ⟨server_idx, h⟩ with is_processing := false }
  else
    servers

/-! ### Concrete states used to evaluate the model -/

/-- A sample request: Small Mixed, service time (55+45)*5 = 500 ms. -/
def sampleRequest : Request :=
  { id := 1000000, kind := .Mixed, size := .Small }

/-- A server slot whose queue holds 10 copies of `sampleRequest` —
at capacity 10/10. -/
def fullServer (id : Nat) : ServerState :=
  { id := id
    queue := List.replicate 10 sampleRequest
    total_workload := 5000
    is_processing := false }

/-- Allocator state with all 3 mirrored servers at capacity 10/10 and a
non-empty FIFO: the failing input of the all-servers-full scenario. -/
def saturatedAlloc : AllocState :=
  { server_states := fun i => fullServer (i.val + 1)
    requests := [sampleRequest]
    full_server := fun _ => false
    consecutive_full_errors := 0 }

/-- Three server slots with total workloads [500, 0, 1500] (the
Smallest-Workload example of the spec). -/
def workloadExample : Servers := fun i =>
  { id := i.val + 1
    queue := []
    total_workload := if i = 0 then 500 else if i = 1 then 0 else 1500
    is_processing := false }

/-! ### Whole-system transition relation

The generator, allocator and server pool run as independently scheduled
tasks exchanging events through channels (src/main.rs `main` and the
router).  The state below holds the allocator's private state, the server
pool's authoritative slots, the in-flight processing jobs per server, and
the routed events still in transit on each channel.  Channel contents carry
the server array index `i : Fin 3`; the source events carry
`server_id = i + 1` (server ids are fixed at 1..3 by `ServerState::new`)
and every receiver recomputes `i = server_id - 1`. -/

structure SysState where
  alloc : AllocState
  pool : Servers
  chanAssigned : List (Fin 3 × Request)
  jobs : Fin 3 → Nat
  chanProcAlloc : List (Fin 3)
  chanProcPool : List (Fin 3)

/-- The three server slots at startup (`ServerState::new(1..3)`,
src/main.rs lines 233-237 and 329-333). -/
def initServers : Servers := fun i => ServerState.new (i.val + 1)

/-- The system state at startup. -/
def initSys : SysState :=
  { alloc :=
      { server_states := initServers, requests := []
        full_server := fun _ => false, consecutive_full_errors := 0 }
    pool := initServers
    chanAssigned := []
    jobs := fun _ => 0
    chanProcAlloc := []
    chanProcPool := [] }

/-- One interleaved step of the system.  Steps correspond to the atomic
actions of the tasks in src/main.rs; the policy's preference list is an
arbitrary `order`, covering Random, RoundRobin and SmallerQueue alike. -/
inductive SysStep : SysState → SysState → Prop where
  /-- The generator emits `RequestCreated(r)`; the router forwards it to the
  allocator, which pushes it at the back of its FIFO (line 251). -/
  | create (s : SysState) (r : Request) :
      SysStep s { s with alloc := { s.alloc with requests := s.alloc.requests ++ [r] } }
  /-- The allocator receives a routed `RequestProcessed` for server `i`
  (lines 253-262): pop its mirror queue and clear the mirror busy flag. -/
  | allocRecvProc (s : SysState) (i : Fin 3) (t : List (Fin 3))
      (h : s.chanProcAlloc = i :: t) :
      SysStep s
        { s with
          alloc :=
            { s.alloc with
              server_states := Function.update s.alloc.server_states i
                { ((s.alloc.server_states i).remove_request).2 with is_processing := false } }
          chanProcAlloc := t }
  /-- One allocation tick (lines 271-317) under preference list `order`;
  an emitted `RequestAssigned` enters the channel towards the pool. -/
  | allocTickStep (s : SysState) (order : List (Fin 3)) :
      SysStep s
        { s with
          alloc := (allocTick s.alloc order).state
          chanAssigned := s.chanAssigned ++ (allocTick s.alloc order).assigned.toList }
  /-- The pool receives a routed `RequestAssigned` (lines 340-347) and
  pushes the request onto the named server's queue. -/
  | poolRecvAssigned (s : SysState) (p : Fin 3 × Request) (t : List (Fin 3 × Request))
      (h : s.chanAssigned = p :: t) :
      SysStep s
        { s with
          pool := Function.update s.pool p.1 ((s.pool p.1).add_request p.2)
          chanAssigned := t }
  /-- The pool receives its own routed `RequestProcessed` (lines 348-359)
  and clears the server's busy flag. -/
  | poolRecvProc (s : SysState) (i : Fin 3) (t : List (Fin 3))
      (h : s.chanProcPool = i :: t) :
      SysStep s
        { s with
          pool := Function.update s.pool i { s.pool i with is_processing := false }
          chanProcPool := t }
  /-- A pool tick starts processing on server `i` (lines 364-370): queue
  non-empty and not busy — pop the head, set busy, spawn a job. -/
  | poolStart (s : SysState) (i : Fin 3)
      (hne : (s.pool i).queue ≠ []) (hbusy : (s.pool i).is_processing = false) :
      SysStep s
        { s with
          pool := Function.update s.pool i
            { ((s.pool i).remove_request).2 with is_processing := true }
          jobs := Function.update s.jobs i (s.jobs i + 1) }
  /-- An in-flight job on server `i` finishes its timed sleep and emits
  `RequestProcessed` (lines 380-389), routed to allocator and pool. -/
  | jobFinish (s : SysState) (i : Fin 3) (h : 0 < s.jobs i) :
      SysStep s
        { s with
          jobs := Function.update s.jobs i (s.jobs i - 1)
          chanProcAlloc := s.chanProcAlloc ++ [i]
          chanProcPool := s.chanProcPool ++ [i] }

/-- Reachable system states. -/
def Reachable (s : SysState) : Prop :=
  Relation.ReflTransGen SysStep initSys s

/-- Events on the assigned-channel destined for server `i`. -/
def assignedInFlight (s : SysState) (i : Fin 3) : Nat :=
  (s.chanAssigned.filter (fun p => p.1 = i)).length

/-- Processed events still in transit towards the allocator for server `i`. -/
def processedInFlight (s : SysState) (i : Fin 3) : Nat :=
  s.chanProcAlloc.count i

/-- The inductive invariant: the allocator's mirror queue for server `i`
holds exactly the requests that are (pool-queued) + (assigned-in-transit) +
(being processed) + (processed-in-transit back to the allocator), and the
mirror queue never exceeds the capacity. -/
def SysInv (s : SysState) : Prop :=
  ∀ i : Fin 3,
    (s.alloc.server_states i).queue.length
      = (s.pool i).queue.length + assignedInFlight s i + s.jobs i + processedInFlight s i
    ∧ (s.alloc.server_states i).queue.length ≤ SERVER_QUEUE_CAPACITY

/-! ## Helper lemmas -/

theorem ServerState.add_request_queue_length (s : ServerState) (r : Request) :
    (s.add_request r).queue.length = s.queue.length + 1 := by
  simp [ServerState.add_request]

theorem ServerState.remove_request_queue_length (s : ServerState)
    (h : s.queue ≠ []) :
    ((s.remove_request).2).queue.length + 1 = s.queue.length := by
  cases hq : s.queue with
  | nil => exact absurd hq h
  | cons r rest => simp [ServerState.remove_request, hq]

theorem ServerState.workload_step (s : ServerState)
    (h : s.total_workload = s.queueWorkload) (op : ServerOp) :
    (s.applyOp op).total_workload = (s.applyOp op).queueWorkload := by
  cases op with
  | add r =>
      simp [ServerState.applyOp, ServerState.add_request, ServerState.queueWorkload] at h ⊢
      omega
  | remove =>
      cases hq : s.queue with
      | nil =>
          simpa [ServerState.applyOp, ServerState.remove_request, hq] using h
      | cons r rest =>
          simp [ServerState.queueWorkload, hq] at h
          simp [ServerState.applyOp, ServerState.remove_request, hq,
            ServerState.queueWorkload]
          omega

theorem ServerState.workload_applyOps (s : ServerState)
    (h : s.total_workload = s.queueWorkload) (ops : List ServerOp) :
    (s.applyOps ops).total_workload = (s.applyOps ops).queueWorkload := by
  induction ops generalizing s with
  | nil => exact h
  | cons op rest ih =>
      exact ih (s.applyOp op) (ServerState.workload_step s h op)

/-! ## Claim theorems -/

/-- **C4.** Starting from a freshly created `ServerState`, after any sequence
of `add_request`/`remove_request` operations the running `total_workload`
equals the sum of `get_time` over the currently queued requests; each
enqueue adds the request's service time incrementally and each dequeue of a
front request `r` removes exactly `r.get_time` by (necessarily non-negative)
saturating subtraction. -/
theorem c4_total_workload_invariant (id : Nat) (ops : List ServerOp) :
    ((ServerState.new id).applyOps ops).total_workload
      = ((ServerState.new id).applyOps ops).queueWorkload
    ∧ (∀ s : ServerState, ∀ r : Request,
        (s.add_request r).total_workload = s.total_workload + r.get_time)
    ∧ (∀ s : ServerState, (s.remove_request).2.total_workload
        = s.total_workload
            - ((s.remove_request).1.map Request.get_time).getD 0) := by
  refine ⟨?_, fun s r => rfl, ?_⟩
  · exact ServerState.workload_applyOps _ (by simp [ServerState.new, ServerState.queueWorkload]) ops
  · intro s
    cases hq : s.queue with
    | nil => simp [ServerState.remove_request, hq]
    | cons r rest => simp [ServerState.remove_request, hq]

/-- **C5.** `serviceTime` is a pure deterministic function of (kind, size):
`get_time = (cpu_time kind + io_time kind) * mult_factor size` with the base
costs and multipliers of src/request.rs, and its value always lies in
[500, 5000] ms. -/
theorem c5_service_time_formula_and_bounds (id : Nat) (kind : RequestType)
    (size : RequestSize) :
    (Request.mk id kind size).get_time
        = (kind.cpu_time + kind.io_time) * size.mult_factor
    ∧ 500 ≤ (Request.mk id kind size).get_time
    ∧ (Request.mk id kind size).get_time ≤ 5000 := by
  refine ⟨rfl, ?_, ?_⟩ <;> cases kind <;> cases size <;>
    simp [Request.get_time, RequestType.cpu_time, RequestType.io_time,
      RequestSize.mult_factor]

/-- **C10.** `remove_request` on an empty queue returns `none` and leaves
the whole state unchanged; on a non-empty queue it returns `some` of the
front (oldest) request. -/
theorem c10_remove_request_empty_behaviour (s : ServerState) :
    (s.queue = [] → s.remove_request = (none, s))
    ∧ (∀ r : Request, ∀ rest : List Request,
        s.queue = r :: rest → (s.remove_request).1 = some r) := by
  constructor
  · intro h
    simp [ServerState.remove_request, h]
  · intro r rest h
    simp [ServerState.remove_request, h]

/-- Witness for C10: evaluated on a concrete empty server and a concrete
one-element queue. -/
theorem c10_witness :
    (ServerState.new 1).remove_request = (none, ServerState.new 1)
    ∧ ((ServerState.mk 1 [sampleRequest] 500 false).remove_request).1
        = some sampleRequest :=
  ⟨(c10_remove_request_empty_behaviour (ServerState.new 1)).1 rfl,
   (c10_remove_request_empty_behaviour (ServerState.mk 1 [sampleRequest] 500 false)).2
      sampleRequest [] rfl⟩

/-- **C6.** Round-Robin with cursor `c < 3` returns
`[c, (c+1) % 3, (c+2) % 3]` and advances the cursor to `(c+1) % 3`; over 3
consecutive calls every server index appears in first position exactly
once. -/
theorem c6_round_robin (c : Nat) (h : c < 3) :
    rrChoose c = ([c, (c + 1) % 3, (c + 2) % 3], (c + 1) % 3)
    ∧ (∀ i : Nat, i < 3 → (rrFirsts c).count i = 1) := by
  refine ⟨rfl, ?_⟩
  interval_cases c <;> · intro i hi; interval_cases i <;> decide

/-- Witness for C6 at cursor 0. -/
theorem c6_witness :
    (0 : Nat) < 3
    ∧ rrChoose 0 = ([0, (0 + 1) % 3, (0 + 2) % 3], (0 + 1) % 3)
    ∧ (rrFirsts 0).count 2 = 1 :=
  ⟨by decide, (c6_round_robin 0 (by decide)).1,
   (c6_round_robin 0 (by decide)).2 2 (by decide)⟩

/-- **C8.** The generator emits `RequestCreated` on a tick exactly when the
Bernoulli trial succeeds and the in-flight counter is strictly below
`PENDING_REQUESTS_LIMIT` (= 20); the counter is incremented on each
creation and decremented on each received `RequestAssigned`.  With
admission limit 1 and two successful creation attempts before any
assignment, only one `RequestCreated` is emitted. -/
theorem c8_generator_admission :
    (∀ p : Int, ∀ t : Bool,
        (genCreationAttempt PENDING_REQUESTS_LIMIT p t).1 = true
          ↔ (p < 20 ∧ t = true))
    ∧ (∀ p : Int, ∀ t : Bool,
        (genCreationAttempt PENDING_REQUESTS_LIMIT p t).2 =
          if (genCreationAttempt PENDING_REQUESTS_LIMIT p t).1 then p + 1 else p)
    ∧ (∀ p : Int, genRecvAssigned p = p - 1)
    ∧ genAttempts 1 0 [true, true] = 1 := by
  refine ⟨?_, ?_, fun p => rfl, by decide⟩
  · intro p t
    by_cases h : p < (20 : Int) ∧ t = true
    · simp [genCreationAttempt, PENDING_REQUESTS_LIMIT, h]
    · simp only [genCreationAttempt, PENDING_REQUESTS_LIMIT, if_neg h]
      simpa using h
  · intro p t
    by_cases h : p < (20 : Int) ∧ t = true
    · simp [genCreationAttempt, PENDING_REQUESTS_LIMIT, h]
    · simp [genCreationAttempt, PENDING_REQUESTS_LIMIT, h]

/-- Counterexample for **C9** as stated: two distinct calls of
`Request::create_random` (they even return different requests) can draw the
same id — the id is a plain `random_range(1000000..10000000)` draw, so
uniqueness within a run is not guaranteed. -/
theorem c9_counterexample :
    Request.create_random 0 0 0 ≠ Request.create_random 0 1 1
    ∧ (Request.create_random 0 0 0).id = (Request.create_random 0 1 1).id := by
  constructor
  · decide
  · rfl

/-- **C9 (amended).** Every created request's id is a random value in the
range [1000000, 10000000); ids of distinct calls are *not* guaranteed to
differ. -/
theorem c9_id_in_range (idDraw kindDraw sizeDraw : Nat) :
    1000000 ≤ (Request.create_random idDraw kindDraw sizeDraw).id
    ∧ (Request.create_random idDraw kindDraw sizeDraw).id < 10000000 := by
  have h : idDraw % 9000000 < 9000000 := Nat.mod_lt _ (by decide)
  constructor
  · simp [Request.create_random]
  · simp only [Request.create_random]
    omega

/-- **C1** (the code, as written): the local `assigned` flag of the
allocation tick is initialised `true` (src/main.rs line 272) and the loop
never sets it `false`, so the `!assigned && full_server == [true; 3]` branch
is unreachable: no `ErrorEncountered` is ever emitted, no backoff sleep is
ever applied and the consecutive-failure counter never moves — in
particular not at the failing input where all 3 servers sit at capacity
10/10 with a non-empty FIFO. -/
theorem c1_error_and_backoff_never_happen :
    (∀ st : AllocState, ∀ order : List (Fin 3),
        (allocTick st order).errorEmitted = false
        ∧ (allocTick st order).sleepMs = 0
        ∧ (allocTick st order).state.consecutive_full_errors
            = st.consecutive_full_errors)
    ∧ (allocTick saturatedAlloc [0, 1, 2]).assigned = none
    ∧ (allocTick saturatedAlloc [0, 1, 2]).errorEmitted = false
    ∧ (allocTick saturatedAlloc [0, 1, 2]).sleepMs = 0 := by
  refine ⟨?_, by decide, by decide, by decide⟩
  intro st order
  cases hreq : st.requests <;> simp [allocTick, hreq]

/-- Counterexample for **C2** as stated: the allocator's `RequestProcessed`
handler indexes `server_states[server_idx]` without any bounds check, so a
server id of 5 (computed index 4, out of range of the 3-server array)
panics (modelled as `none`) instead of being skipped with the state left
unchanged. -/
theorem c2_counterexample :
    allocRecvProcessedEvent initServers 5 = none := by
  rfl

/-- **C2 (amended).** For an event whose computed server index
`(server_id - 1) as usize` is out of range, the Server Pool's two handlers
are defensive no-ops (they skip the update, leaving the state unchanged),
but the Allocator's `RequestProcessed` handler performs an unchecked index
and panics rather than skipping. -/
theorem c2_out_of_range_handling (servers mirror : Servers) (server_id : Nat)
    (r : Request) (h : ¬ serverIdxOfId server_id < 3) :
    poolRecvAssignedEvent servers server_id r = servers
    ∧ poolRecvProcessedEvent servers server_id = servers
    ∧ allocRecvProcessedEvent mirror server_id = none := by
  refine ⟨?_, ?_, ?_⟩
  · unfold poolRecvAssignedEvent
    exact dif_neg h
  · unfold poolRecvProcessedEvent
    exact dif_neg h
  · unfold allocRecvProcessedEvent
    exact dif_neg h

/-- Witness for C2 (amended) at `server_id = 5` (index 4, out of range). -/
theorem c2_witness :
    ¬ serverIdxOfId 5 < 3
    ∧ (poolRecvAssignedEvent initServers 5 sampleRequest = initServers
       ∧ poolRecvProcessedEvent initServers 5 = initServers
       ∧ allocRecvProcessedEvent initServers 5 = none) :=
  ⟨by decide, c2_out_of_range_handling initServers initServers 5 sampleRequest (by decide)⟩

/-- `List.Pairwise` for a concrete three-element list. -/
theorem pairwise_three {R : Fin 3 → Fin 3 → Prop} {a b c : Fin 3}
    (hab : R a b) (hac : R a c) (hbc : R b c) :
    List.Pairwise R [a, b, c] := by
  refine List.Pairwise.cons ?_ (List.Pairwise.cons ?_ (List.pairwise_singleton R c))
  · intro x hx
    rcases List.mem_cons.mp hx with rfl | hx2
    · exact hab
    · rcases List.mem_singleton.mp hx2 with rfl
      exact hac
  · intro x hx
    rcases List.mem_singleton.mp hx with rfl
    exact hbc

/-- **C7.** The Smallest-Workload policy returns the three server indices
sorted ascending by `total_workload`, ties broken by original index order
(`sort_by_key` is stable); for workloads [500, 0, 1500] it returns
[1, 0, 2]. -/
theorem c7_smallest_workload (st : Servers) :
    (smallerQueueChoose st).Perm [0, 1, 2]
    ∧ List.Pairwise
        (fun i j : Fin 3 =>
          (st i).total_workload < (st j).total_workload
          ∨ ((st i).total_workload = (st j).total_workload ∧ i < j))
        (smallerQueueChoose st)
    ∧ smallerQueueChoose workloadExample = [1, 0, 2] := by
  have main : (smallerQueueChoose st).Perm [0, 1, 2]
      ∧ List.Pairwise
          (fun i j : Fin 3 =>
            (st i).total_workload < (st j).total_workload
            ∨ ((st i).total_workload = (st j).total_workload ∧ i < j))
          (smallerQueueChoose st) := by
    by_cases h12 : (st 1).total_workload ≤ (st 2).total_workload
    · by_cases h01 : (st 0).total_workload ≤ (st 1).total_workload
      · have hl : smallerQueueChoose st = [0, 1, 2] := by
          simp [smallerQueueChoose, List.insertionSort, List.orderedInsert, h12, h01]
        rw [hl]
        refine ⟨by decide, pairwise_three ?_ ?_ ?_⟩
        · rcases Nat.lt_or_ge (st 0).total_workload (st 1).total_workload with h | h
          · exact Or.inl h
          · exact Or.inr ⟨by omega, by decide⟩
        · rcases Nat.lt_or_ge (st 0).total_workload (st 2).total_workload with h | h
          · exact Or.inl h
          · exact Or.inr ⟨by omega, by decide⟩
        · rcases Nat.lt_or_ge (st 1).total_workload (st 2).total_workload with h | h
          · exact Or.inl h
          · exact Or.inr ⟨by omega, by decide⟩
      · by_cases h02 : (st 0).total_workload ≤ (st 2).total_workload
        · have hl : smallerQueueChoose st = [1, 0, 2] := by
            simp [smallerQueueChoose, List.insertionSort, List.orderedInsert, h12, h01, h02]
          rw [hl]
          refine ⟨by decide, pairwise_three (Or.inl (by omega)) ?_ ?_⟩
          · rcases Nat.lt_or_ge (st 1).total_workload (st 2).total_workload with h | h
            · exact Or.inl h
            · exact Or.inr ⟨by omega, by decide⟩
          · rcases Nat.lt_or_ge (st 0).total_workload (st 2).total_workload with h | h
            · exact Or.inl h
            · exact Or.inr ⟨by omega, by decide⟩
        · have hl : smallerQueueChoose st = [1, 2, 0] := by
            simp [smallerQueueChoose, List.insertionSort, List.orderedInsert, h12, h01, h02]
          rw [hl]
          refine ⟨by decide, pairwise_three ?_ (Or.inl (by omega)) (Or.inl (by omega))⟩
          rcases Nat.lt_or_ge (st 1).total_workload (st 2).total_workload with h | h
          · exact Or.inl h
          · exact Or.inr ⟨by omega, by decide⟩
    · by_cases h02 : (st 0).total_workload ≤ (st 2).total_workload
      · have hl : smallerQueueChoose st = [0, 2, 1] := by
          simp [smallerQueueChoose, List.insertionSort, List.orderedInsert, h12, h02]
        rw [hl]
        refine ⟨by decide, pairwise_three ?_ ?_ (Or.inl (by omega))⟩
        · rcases Nat.lt_or_ge (st 0).total_workload (st 2).total_workload with h | h
          · exact Or.inl h
          · exact Or.inr ⟨by omega, by decide⟩
        · rcases Nat.lt_or_ge (st 0).total_workload (st 1).total_workload with h | h
          · exact Or.inl h
          · exact Or.inr ⟨by omega, by decide⟩
      · by_cases h01 : (st 0).total_workload ≤ (st 1).total_workload
        · have hl : smallerQueueChoose st = [2, 0, 1] := by
            simp [smallerQueueChoose, List.insertionSort, List.orderedInsert, h12, h02, h01]
          rw [hl]
          refine ⟨by decide, pairwise_three (Or.inl (by omega)) (Or.inl (by omega)) ?_⟩
          rcases Nat.lt_or_ge (st 0).total_workload (st 1).total_workload with h | h
          · exact Or.inl h
          · exact Or.inr ⟨by omega, by decide⟩
        · have hl : smallerQueueChoose st = [2, 1, 0] := by
            simp [smallerQueueChoose, List.insertionSort, List.orderedInsert, h12, h02, h01]
          rw [hl]
          exact ⟨by decide,
            pairwise_three (Or.inl (by omega)) (Or.inl (by omega)) (Or.inl (by omega))⟩
  exact ⟨main.1, main.2, by decide⟩

theorem allocWalk_none_states (states : Servers) (r : Request) :
    ∀ (order : List (Fin 3)) (full : Fin 3 → Bool),
      (allocWalk states full r order).2.2 = none →
        (allocWalk states full r order).1 = states := by
  intro order
  induction order with
  | nil => intro full _; rfl
  | cons k rest ih =>
      intro full hnone
      by_cases hcap : (states k).queue.length < SERVER_QUEUE_CAPACITY
      · simp [allocWalk, hcap] at hnone
      · simp only [allocWalk, if_neg hcap] at hnone ⊢
        exact ih _ hnone

theorem allocWalk_some_states (states : Servers) (r : Request) :
    ∀ (order : List (Fin 3)) (full : Fin 3 → Bool) (idx : Fin 3),
      (allocWalk states full r order).2.2 = some idx →
        (states idx).queue.length < SERVER_QUEUE_CAPACITY
        ∧ (allocWalk states full r order).1
            = Function.update states idx ((states idx).add_request r) := by
  intro order
  induction order with
  | nil => intro full idx h; simp [allocWalk] at h
  | cons k rest ih =>
      intro full idx h
      by_cases hcap : (states k).queue.length < SERVER_QUEUE_CAPACITY
      · have h2 : k = idx := by simpa [allocWalk, hcap] using h
        subst h2
        exact ⟨hcap, by simp [allocWalk, hcap]⟩
      · simp only [allocWalk, if_neg hcap] at h ⊢
        exact ih _ _ h

theorem allocTick_states_spec (st : AllocState) (order : List (Fin 3)) :
    ((allocTick st order).assigned = none
      ∧ (allocTick st order).state.server_states = st.server_states)
    ∨ (∃ idx : Fin 3, ∃ r : Request,
        (allocTick st order).assigned = some (idx, r)
        ∧ (st.server_states idx).queue.length < SERVER_QUEUE_CAPACITY
        ∧ (allocTick st order).state.server_states
            = Function.update st.server_states idx ((st.server_states idx).add_request r)) := by
  cases hreq : st.requests with
  | nil => exact Or.inl (by simp [allocTick, hreq])
  | cons r rest =>
      cases hw : (allocWalk st.server_states st.full_server r order).2.2 with
      | none =>
          refine Or.inl ⟨by simp [allocTick, hreq, hw], ?_⟩
          have h0 := allocWalk_none_states st.server_states r order st.full_server hw
          simp [allocTick, hreq, hw, h0]
      | some idx =>
          obtain ⟨hlt, heq⟩ :=
            allocWalk_some_states st.server_states r order st.full_server idx hw
          exact Or.inr ⟨idx, r, by simp [allocTick, hreq, hw], hlt,
            by simp [allocTick, hreq, heq]⟩

theorem sysInv_init : SysInv initSys := by
  intro i
  simp [SysInv, initSys, initServers, ServerState.new, assignedInFlight,
    processedInFlight, SERVER_QUEUE_CAPACITY]

theorem queue_setProcessing (y : ServerState) (b : Bool) :
    ({ y with is_processing := b } : ServerState).queue = y.queue := rfl

theorem count_cons_fin (a : Fin 3) (l : List (Fin 3)) (i : Fin 3) :
    (a :: l).count i = l.count i + (if a = i then 1 else 0) := by
  by_cases h : a = i
  · subst h
    simp [List.count_cons]
  · simp [List.count_cons, h]

theorem count_append_one_fin (l : List (Fin 3)) (a i : Fin 3) :
    (l ++ [a]).count i = l.count i + (if a = i then 1 else 0) := by
  rw [List.count_append]
  by_cases h : a = i
  · subst h
    simp
  · simp [h]
    rw [List.count_eq_zero]
    intro hm
    exact h (List.mem_singleton.mp hm).symm

theorem filterLen_cons (a : Fin 3 × Request) (l : List (Fin 3 × Request)) (i : Fin 3) :
    ((a :: l).filter (fun p => p.1 = i)).length
      = (l.filter (fun p => p.1 = i)).length + (if a.1 = i then 1 else 0) := by
  by_cases h : a.1 = i <;> simp [List.filter_cons, h]

theorem filterLen_append_one (l : List (Fin 3 × Request)) (a : Fin 3 × Request)
    (i : Fin 3) :
    ((l ++ [a]).filter (fun p => p.1 = i)).length
      = (l.filter (fun p => p.1 = i)).length + (if a.1 = i then 1 else 0) := by
  rw [List.filter_append, List.length_append]
  by_cases h : a.1 = i <;> simp [List.filter_cons, h]

theorem sysInv_step {s t : SysState} (hstep : SysStep s t) (hs : SysInv s) :
    SysInv t := by
  cases hstep with
  | create r =>
      intro j
      exact hs j
  | allocRecvProc i tl hch =>
      intro j
      have hj1 := (hs j).1
      have hj2 := (hs j).2
      simp only [assignedInFlight, processedInFlight] at hj1
      have hcnt : s.chanProcAlloc.count j = tl.count j + (if i = j then 1 else 0) := by
        rw [hch]
        exact count_cons_fin i tl j
      by_cases hij : i = j
      · rw [if_pos hij] at hcnt
        have hne : (s.alloc.server_states j).queue ≠ [] :=
          List.length_pos.mp (by omega)
        have hrem := ServerState.remove_request_queue_length _ hne
        constructor
        · show (Function.update s.alloc.server_states i
              { ((s.alloc.server_states i).remove_request).2 with
                  is_processing := false } j).queue.length
            = (s.pool j).queue.length
              + (s.chanAssigned.filter (fun p => p.1 = j)).length
              + s.jobs j + tl.count j
          rw [hij, Function.update_same, queue_setProcessing]
          omega
        · show (Function.update s.alloc.server_states i
              { ((s.alloc.server_states i).remove_request).2 with
                  is_processing := false } j).queue.length ≤ SERVER_QUEUE_CAPACITY
          rw [hij, Function.update_same, queue_setProcessing]
          omega
      · rw [if_neg hij] at hcnt
        have hupd : Function.update s.alloc.server_states i
            { ((s.alloc.server_states i).remove_request).2 with
                is_processing := false } j
              = s.alloc.server_states j :=
          Function.update_noteq (fun h => hij h.symm) _ _
        constructor
        · show (Function.update s.alloc.server_states i
              { ((s.alloc.server_states i).remove_request).2 with
                  is_processing := false } j).queue.length
            = (s.pool j).queue.length
              + (s.chanAssigned.filter (fun p => p.1 = j)).length
              + s.jobs j + tl.count j
          rw [hupd]
          omega
        · show (Function.update s.alloc.server_states i
              { ((s.alloc.server_states i).remove_request).2 with
                  is_processing := false } j).queue.length ≤ SERVER_QUEUE_CAPACITY
          rw [hupd]
          omega
  | allocTickStep order =>
      rcases allocTick_states_spec s.alloc order with ⟨hev, hst⟩ | ⟨idx, r, hev, hlt, hst⟩
      · intro j
        have hj1 := (hs j).1
        have hj2 := (hs j).2
        simp only [assignedInFlight, processedInFlight] at hj1
        constructor
        · show (((allocTick s.alloc order).state.server_states) j).queue.length
            = (s.pool j).queue.length
              + ((s.chanAssigned
                    ++ ((allocTick s.alloc order).assigned).toList).filter
                  (fun p => p.1 = j)).length
              + s.jobs j + s.chanProcAlloc.count j
          rw [hst, hev]
          simpa using hj1
        · show (((allocTick s.alloc order).state.server_states) j).queue.length
            ≤ SERVER_QUEUE_CAPACITY
          rw [hst]
          exact hj2
      · intro j
        have hj1 := (hs j).1
        have hj2 := (hs j).2
        simp only [assignedInFlight, processedInFlight] at hj1
        have hfl : ((s.chanAssigned
              ++ ((allocTick s.alloc order).assigned).toList).filter
                (fun p => p.1 = j)).length
            = (s.chanAssigned.filter (fun p => p.1 = j)).length
              + (if idx = j then 1 else 0) := by
          rw [hev]
          exact filterLen_append_one s.chanAssigned (idx, r) j
        by_cases hij : idx = j
        · rw [if_pos hij] at hfl
          rw [hij] at hlt
          constructor
          · show (((allocTick s.alloc order).state.server_states) j).queue.length
              = (s.pool j).queue.length
                + ((s.chanAssigned
                      ++ ((allocTick s.alloc order).assigned).toList).filter
                    (fun p => p.1 = j)).length
                + s.jobs j + s.chanProcAlloc.count j
            rw [hst, hij, Function.update_same,
              ServerState.add_request_queue_length, hfl]
            omega
          · show (((allocTick s.alloc order).state.server_states) j).queue.length
              ≤ SERVER_QUEUE_CAPACITY
            rw [hst, hij, Function.update_same,
              ServerState.add_request_queue_length]
            omega
        · rw [if_neg hij] at hfl
          have hupd : Function.update s.alloc.server_states idx
              ((s.alloc.server_states idx).add_request r) j
                = s.alloc.server_states j :=
            Function.update_noteq (fun h => hij h.symm) _ _
          constructor
          · show (((allocTick s.alloc order).state.server_states) j).queue.length
              = (s.pool j).queue.length
                + ((s.chanAssigned
                      ++ ((allocTick s.alloc order).assigned).toList).filter
                    (fun p => p.1 = j)).length
                + s.jobs j + s.chanProcAlloc.count j
            rw [hst, hupd, hfl]
            omega
          · show (((allocTick s.alloc order).state.server_states) j).queue.length
              ≤ SERVER_QUEUE_CAPACITY
            rw [hst, hupd]
            exact hj2
  | poolRecvAssigned p tl hch =>
      intro j
      have hj1 := (hs j).1
      have hj2 := (hs j).2
      simp only [assignedInFlight, processedInFlight] at hj1
      have hfl : (s.chanAssigned.filter (fun q => q.1 = j)).length
          = (tl.filter (fun q => q.1 = j)).length + (if p.1 = j then 1 else 0) := by
        rw [hch]
        exact filterLen_cons p tl j
      by_cases hpj : p.1 = j
      · rw [if_pos hpj] at hfl
        constructor
        · show (s.alloc.server_states j).queue.length
            = (Function.update s.pool p.1 ((s.pool p.1).add_request p.2) j).queue.length
              + (tl.filter (fun q => q.1 = j)).length
              + s.jobs j + s.chanProcAlloc.count j
          rw [hpj, Function.update_same, ServerState.add_request_queue_length]
          omega
        · exact hj2
      · rw [if_neg hpj] at hfl
        have hupd : Function.update s.pool p.1 ((s.pool p.1).add_request p.2) j
            = s.pool j := Function.update_noteq (fun h => hpj h.symm) _ _
        constructor
        · show (s.alloc.server_states j).queue.length
            = (Function.update s.pool p.1 ((s.pool p.1).add_request p.2) j).queue.length
              + (tl.filter (fun q => q.1 = j)).length
              + s.jobs j + s.chanProcAlloc.count j
          rw [hupd]
          omega
        · exact hj2
  | poolRecvProc i tl hch =>
      intro j
      have hj1 := (hs j).1
      have hj2 := (hs j).2
      simp only [assignedInFlight, processedInFlight] at hj1
      by_cases hij : i = j
      · constructor
        · show (s.alloc.server_states j).queue.length
            = (Function.update s.pool i
                  { s.pool i with is_processing := false } j).queue.length
              + (s.chanAssigned.filter (fun q => q.1 = j)).length
              + s.jobs j + s.chanProcAlloc.count j
          rw [hij, Function.update_same, queue_setProcessing]
          exact hj1
        · exact hj2
      · have hupd : Function.update s.pool i
            { s.pool i with is_processing := false } j = s.pool j :=
          Function.update_noteq (fun h => hij h.symm) _ _
        constructor
        · show (s.alloc.server_states j).queue.length
            = (Function.update s.pool i
                  { s.pool i with is_processing := false } j).queue.length
              + (s.chanAssigned.filter (fun q => q.1 = j)).length
              + s.jobs j + s.chanProcAlloc.count j
          rw [hupd]
          exact hj1
        · exact hj2
  | poolStart i hne hbusy =>
      intro j
      have hj1 := (hs j).1
      have hj2 := (hs j).2
      simp only [assignedInFlight, processedInFlight] at hj1
      by_cases hij : i = j
      · rw [hij] at hne
        have hrem := ServerState.remove_request_queue_length _ hne
        constructor
        · show (s.alloc.server_states j).queue.length
            = (Function.update s.pool i
                  { ((s.pool i).remove_request).2 with is_processing := true } j).queue.length
              + (s.chanAssigned.filter (fun q => q.1 = j)).length
              + Function.update s.jobs i (s.jobs i + 1) j
              + s.chanProcAlloc.count j
          rw [hij]
          simp only [Function.update_same, queue_setProcessing]
          omega
        · exact hj2
      · have hupd1 : Function.update s.pool i
            { ((s.pool i).remove_request).2 with is_processing := true } j
              = s.pool j := Function.update_noteq (fun h => hij h.symm) _ _
        have hupd2 : Function.update s.jobs i (s.jobs i + 1) j = s.jobs j :=
          Function.update_noteq (fun h => hij h.symm) _ _
        constructor
        · show (s.alloc.server_states j).queue.length
            = (Function.update s.pool i
                  { ((s.pool i).remove_request).2 with is_processing := true } j).queue.length
              + (s.chanAssigned.filter (fun q => q.1 = j)).length
              + Function.update s.jobs i (s.jobs i + 1) j
              + s.chanProcAlloc.count j
          rw [hupd1, hupd2]
          exact hj1
        · exact hj2
  | jobFinish i hpos =>
      intro j
      have hj1 := (hs j).1
      have hj2 := (hs j).2
      simp only [assignedInFlight, processedInFlight] at hj1
      have hcnt : (s.chanProcAlloc ++ [i]).count j
          = s.chanProcAlloc.count j + (if i = j then 1 else 0) :=
        count_append_one_fin s.chanProcAlloc i j
      by_cases hij : i = j
      · rw [if_pos hij] at hcnt
        rw [hij] at hpos
        constructor
        · show (s.alloc.server_states j).queue.length
            = (s.pool j).queue.length
              + (s.chanAssigned.filter (fun q => q.1 = j)).length
              + Function.update s.jobs i (s.jobs i - 1) j
              + (s.chanProcAlloc ++ [i]).count j
          rw [hcnt, hij, Function.update_same]
          omega
        · exact hj2
      · rw [if_neg hij] at hcnt
        have hupd : Function.update s.jobs i (s.jobs i - 1) j = s.jobs j :=
          Function.update_noteq (fun h => hij h.symm) _ _
        constructor
        · show (s.alloc.server_states j).queue.length
            = (s.pool j).queue.length
              + (s.chanAssigned.filter (fun q => q.1 = j)).length
              + Function.update s.jobs i (s.jobs i - 1) j
              + (s.chanProcAlloc ++ [i]).count j
          rw [hupd, hcnt]
          omega
        · exact hj2

theorem sysInv_reachable {s : SysState} (h : Reachable s) : SysInv s := by
  induction h with
  | refl => exact sysInv_init
  | tail hsteps hstep ih => exact sysInv_step hstep ih

/-- **C3.** In every reachable system state, every server slot's queue —
both the allocator's mirror and the server pool's authoritative copy —
holds at most `SERVER_QUEUE_CAPACITY` (= 10) requests: the allocator only
assigns the head-of-FIFO request to the first server of the preference
list whose mirrored queue length is below capacity, and no interleaving of
the other operations grows any queue past it. -/
theorem c3_queue_length_le_capacity (s : SysState) (hr : Reachable s) (i : Fin 3) :
    (s.alloc.server_states i).queue.length ≤ SERVER_QUEUE_CAPACITY
    ∧ (s.pool i).queue.length ≤ SERVER_QUEUE_CAPACITY := by
  obtain ⟨heq, hle⟩ := sysInv_reachable hr i
  exact ⟨hle, by omega⟩

/-- Witness for C3 at the initial state. -/
theorem c3_witness :
    Reachable initSys
    ∧ (initSys.alloc.server_states 0).queue.length ≤ SERVER_QUEUE_CAPACITY
    ∧ (initSys.pool 0).queue.length ≤ SERVER_QUEUE_CAPACITY :=
  ⟨Relation.ReflTransGen.refl,
   (c3_queue_length_le_capacity initSys Relation.ReflTransGen.refl 0).1,
   (c3_queue_length_le_capacity initSys Relation.ReflTransGen.refl 0).2⟩

end LoadBalancer
